import Mathlib

/-!
Verification development for the expression-evaluation core of a
MongoDB-style aggregation engine (operator registry, computeValue,
accumulate, redact, and the $floor arithmetic operator).

The embedding models JavaScript runtime values as the inductive family
`Value` / `ValueList` / `FieldList` (objects keep insertion order, as the
source iterates entries in order with `each`), fallible evaluation as
`Except Err`, and the process-wide operator table as an explicit
`Registry` value threaded through every call.  Registered operator
implementations are opaque callables of type `Op`.

Source of truth: the repository core module (operator registry,
systemVariables, redactVariables, accumulate, computeValue, redact) and
src/operators/expression/arithmetic/floor.ts.  Utility primitives
(resolve, isNumber, isNil, ...) live in a util module that is part of
the repository but outside the provided sources; those are modelled from
the specification and carry a "Modelled from the spec" marker.
-/

namespace Mingo

mutual
/-- Runtime values: JSON-like documents plus the JS specials `undefined`
(the absent value) and the number `NaN` (produced by coercing
arithmetic).  Arrays and objects use dedicated list types so that all
evaluators can be defined by mutual structural recursion. -/
inductive Value where
  | null
  | undefined
  | nan
  | bool (b : Bool)
  | num (q : Rat)
  | str (s : String)
  | arr (items : ValueList)
  | obj (fields : FieldList)
inductive ValueList where
  | nil
  | cons (head : Value) (tail : ValueList)
inductive FieldList where
  | nil
  | cons (key : String) (value : Value) (tail : FieldList)
end

/-- Number of entries of an object, i.e. `keys(expr).length` in the source. -/
def FieldList.length : FieldList → Nat
  | .nil => 0
  | .cons _ _ rest => rest.length + 1

/-- Number of elements of an array value. -/
def ValueList.length : ValueList → Nat
  | .nil => 0
  | .cons _ rest => rest.length + 1

/-- First value stored under a key, if any (JS object keys are unique). -/
def getField : FieldList → String → Option Value
  | .nil, _ => none
  | .cons k v rest, name => if k = name then some v else getField rest name

/-- Models `has(v, key)`: own-property test; false on every non-object. -/
def hasField (v : Value) (key : String) : Bool :=
  match v with
  | .obj fs => (getField fs key).isSome
  | _ => false

/-- Modelled from the spec: util's `isNil` (null or absent/undefined), the
test used by `$floor` and by the `$$DESCEND` traversal. -/
def isNil : Value → Bool
  | .null => true
  | .undefined => true
  | _ => false

/-- Models util's `isArray`. -/
def isArrayV : Value → Bool
  | .arr _ => true
  | _ => false

/-- Models util's `isObject` (a plain object; arrays excluded). -/
def isObjectV : Value → Bool
  | .obj _ => true
  | _ => false

/-- Models util's `isObjectLike` (array or plain object). -/
def isObjectLikeV : Value → Bool
  | .arr _ => true
  | .obj _ => true
  | _ => false

/-- Modelled from the spec: util's `isNumber` — the value is an actual
(finite) number; `NaN` is not accepted (mingo's isNumber rejects `NaN`,
and `$floor` compensates with an explicit `isNaN` disjunct). -/
def isNumberV : Value → Bool
  | .num _ => true
  | _ => false

/-- Splits a character list on a separator character; mirrors the
behaviour of JS `String.prototype.split` with a one-character separator
(an empty input yields one empty segment, like `''.split('.')`). -/
def splitChar (sep : Char) : List Char → List (List Char)
  | [] => [[]]
  | c :: rest =>
    let groups := splitChar sep rest
    if c = sep then [] :: groups
    else
      match groups with
      | [] => [[c]]
      | g :: gs => (c :: g) :: gs

/-- Models `expr.split('.')` from the source. -/
def splitDot (s : String) : List String :=
  (splitChar '.' s.data).map (fun cs => ⟨cs⟩)

/-- Models `s.substr(n)` / `s.slice(n)` (drop the first `n` characters). -/
def dropChars (s : String) (n : Nat) : String := ⟨s.data.drop n⟩

/-- Models the guard `isString(expr) && expr.length > 0 && expr[0] === '$'`. -/
def headIsDollar (s : String) : Bool :=
  match s.data with
  | c :: _ => c = '$'
  | [] => false

/-- Config information used when executing operators; `createConfig()`
returns `{ idKey: '_id' }`. -/
structure Config where
  idKey : String

/-- Default config, `createConfig()` in the source. -/
def createConfig : Config := ⟨"_id"⟩

/-- Options threaded through evaluation.  `config` is optional because a
caller may pass `{ config: null }` (or no options at all, which the
entry point turns into exactly that); `root` is the lazily supplied
top-level document reference read by `$$ROOT`. -/
structure ComputeOptions where
  config : Option Config
  root : Option Value

/-- Models lines `options = options || { config: null };
options.config = options.config || createConfig()` at the top of
`computeValue`. -/
def normalizeOptions (o : ComputeOptions) : ComputeOptions :=
  { o with config := some (o.config.getD createConfig) }

/-- Models `Object.assign({ root: obj }, options)`: the fresh object
starts with `root := obj` and then every own property of `options` is
copied over it, so an existing `options.root` wins over `obj`. -/
def mergeRootOptions (obj : Value) (o : ComputeOptions) : ComputeOptions :=
  { o with root := some (o.root.getD obj) }

/-- Failure taxonomy of the core, mirroring the spec's error-handling
design: every `assert(...)`-style fault site of the sources maps to one
constructor (invalid registration name, duplicate registration,
"Invalid aggregation expression", "Invalid $group expression", and the
type faults "... must resolve to an array" / "$floor expression must
resolve to a number"). -/
inductive Err where
  | invalidOperatorName
  | duplicateOperator
  | invalidExpression
  | invalidGroupExpression
  | typeError
deriving DecidableEq

/-- Registered operator implementations are opaque callables.
The source calls EXPRESSION operators as `call(obj, expr, options)`,
ACCUMULATOR operators as `call(collection, expr, options)` (the
collection being an array value), so one uniform shape covers both. -/
abbrev Op := Value → Value → ComputeOptions → Except Err Value

/-- The five operator categories (`OperatorType` in the source). -/
inductive OperatorType where
  | ACCUMULATOR
  | EXPRESSION
  | PIPELINE
  | PROJECTION
  | QUERY
deriving DecidableEq

/-- The operator table `OPERATORS`, one name-to-callable map per
category, modelled as an explicit value instead of process-wide mutable
state. -/
structure Registry where
  accumulator : List (String × Op)
  expression : List (String × Op)
  pipeline : List (String × Op)
  projection : List (String × Op)
  query : List (String × Op)

/-- Table of the given category, `OPERATORS[cls]`. -/
def Registry.ops (reg : Registry) : OperatorType → List (String × Op)
  | .ACCUMULATOR => reg.accumulator
  | .EXPRESSION => reg.expression
  | .PIPELINE => reg.pipeline
  | .PROJECTION => reg.projection
  | .QUERY => reg.query

/-- Replaces the table of the given category. -/
def Registry.setOps (reg : Registry) : OperatorType → List (String × Op) → Registry
  | .ACCUMULATOR, l => { reg with accumulator := l }
  | .EXPRESSION, l => { reg with expression := l }
  | .PIPELINE, l => { reg with pipeline := l }
  | .PROJECTION, l => { reg with projection := l }
  | .QUERY, l => { reg with query := l }

/-- First binding of a name in a table (keys are unique in practice). -/
def lookupOp : List (String × Op) → String → Option Op
  | [], _ => none
  | (k, f) :: rest, name => if k = name then some f else lookupOp rest name

/-- Models `getOperator(cls, operator)`:
`has(OPERATORS[cls], operator) ? OPERATORS[cls][operator] : null`. -/
def getOperator (reg : Registry) (cls : OperatorType) (name : String) : Option Op :=
  lookupOp (reg.ops cls) name

/-- The test `[EXPRESSION, ACCUMULATOR].some(c => has(OPERATORS[c], key))`
from the mapping case of `computeValue`. -/
def isOpKey (reg : Registry) (k : String) : Bool :=
  (getOperator reg .EXPRESSION k).isSome || (getOperator reg .ACCUMULATOR k).isSome

/-- Models the name pattern `^\x24[a-zA-Z0-9_]*\x24`-anchored regex of
`addOperators` (a dollar sign followed by word characters). -/
def isValidOpName (s : String) : Bool :=
  match s.data with
  | '$' :: rest => rest.all (fun c => c.isAlphanum || c = '_')
  | _ => false

/-- Validation loop of `addOperators` (source lines 83-87): every new
name is checked — pattern first, then non-existence — before anything is
merged; the first offending name decides the error. -/
def checkNewOperators (reg : Registry) (cls : OperatorType) :
    List (String × Op) → Option Err
  | [] => none
  | (name, _) :: rest =>
    if !isValidOpName name then some .invalidOperatorName
    else if (getOperator reg cls name).isSome then some .duplicateOperator
    else checkNewOperators reg cls rest

/-- One `target[k] = v` step of `Object.assign` on an ordered table:
replaces in place when the key exists, appends otherwise. -/
def setOpKey : List (String × Op) → String → Op → List (String × Op)
  | [], k, f => [(k, f)]
  | (k', f') :: rest, k, f =>
    if k' = k then (k, f) :: rest else (k', f') :: setOpKey rest k f

/-- Models `Object.assign(OPERATORS[cls], operators)` key by key. -/
def assignOps : List (String × Op) → List (String × Op) → List (String × Op)
  | old, [] => old
  | old, (k, f) :: rest => assignOps (setOpKey old k f) rest

/-- Models `useOperators(cls, operators)`: merge the mapping into the
category's table, overwriting on collision. -/
def useOperators (reg : Registry) (cls : OperatorType)
    (ops : List (String × Op)) : Registry :=
  reg.setOps cls (assignOps (reg.ops cls) ops)

/-- Models `addOperators(cls, operatorFn)` after the factory has been
applied to the capability bundle, so `newOps` is the raw
name-to-implementation mapping the factory returned.  Every name is
validated before any merge happens, hence a failure leaves the registry
value untouched (the caller keeps its input registry).  The
category-specific wrapping of QUERY and PROJECTION operators only adapts
calling conventions of the opaque callables (resolving the selector
before delegating) and the default branch is a pass-through; since
callables are opaque values here, the wrap step is the identity on the
stored implementation and does not affect names or table structure. -/
def addOperators (reg : Registry) (cls : OperatorType)
    (newOps : List (String × Op)) : Except Err Registry :=
  match checkNewOperators reg cls newOps with
  | some e => .error e
  | none => .ok (useOperators reg cls newOps)

/-- Names of the three system variables (keys of `systemVariables`). -/
def sysVarNames : List String := ["$$ROOT", "$$CURRENT", "$$REMOVE"]

/-- Names of the three redact variables (keys of `redactVariables`). -/
def redactVarNames : List String := ["$$KEEP", "$$PRUNE", "$$DESCEND"]

/-- Dispatch into the `systemVariables` table: the `$$ROOT` handler
returns `options.root`, `$$CURRENT` returns the current object,
`$$REMOVE` returns undefined.  `options` here is the merged object built
by `mergeRootOptions` at the call site. -/
def applySysVar (name : String) (obj : Value) (options : ComputeOptions) : Value :=
  if name = "$$ROOT" then options.root.getD .undefined
  else if name = "$$CURRENT" then obj
  else .undefined

/-- Modelled from the spec: util's `resolve(document, path)` is the
external dot-path traversal primitive (its source is outside src/).
Each path segment selects a field of the current object; a missing field
or a non-object intermediate yields the absent value.  The
array-unwrapping behaviour is an option used only by the QUERY wrapper
and is not modelled. -/
def resolveSegs : Value → List String → Value
  | v, [] => v
  | .obj fs, seg :: rest =>
    match getField fs seg with
    | some v' => resolveSegs v' rest
    | none => .undefined
  | _, _ :: _ => .undefined

/-- Modelled from the spec: `resolve(obj, path)` splits the dotted path
and traverses it from `obj`. -/
def resolve (obj : Value) (path : String) : Value :=
  resolveSegs obj (splitDot path)

mutual
/-- Body of `computeValue` for the branches that run when neither
operator lookup fired (source lines 244-284): `$`-prefixed string
selectors, arrays, mappings and plain scalars.  The caller has already
normalized the options (the source mutates `options.config` in place at
entry, so every recursive call observes normalized options; the
re-normalization a recursive `computeValue` performs is the identity). -/
def computeExpr (reg : Registry) (obj expr : Value) (options : ComputeOptions) :
    Except Err Value :=
  match expr with
  | .str s =>
    if headIsDollar s then
      if s ∈ redactVarNames then .ok (.str s)
      else
        match splitDot s with
        | [] => .ok (resolve obj (dropChars s 1))
        -- splitDot never returns an empty list, so the arm above is
        -- unreachable; it behaves like the no-system-variable fall-through
        | seg0 :: restSegs =>
          if seg0 ∈ sysVarNames then
            let obj2 := applySysVar seg0 obj (mergeRootOptions obj options)
            if restSegs.isEmpty then .ok obj2
            else .ok (resolve obj2 (dropChars (dropChars s seg0.length) 1))
          else .ok (resolve obj (dropChars s 1))
    else .ok expr
  | .arr items =>
    match computeArr reg obj options items with
    | .error e => .error e
    | .ok vs => .ok (.arr vs)
  | .obj fields => computeObj reg obj options fields.length fields
  | _ => .ok expr

/-- Models `expr.map(item => computeValue(obj, item, null, options))`:
each element goes through a `computeValue` call with a null operator,
which normalizes options and (as no operator is named `null`) falls
through to `computeExpr`; the first failure aborts the map. -/
def computeArr (reg : Registry) (obj : Value) (options : ComputeOptions) :
    ValueList → Except Err ValueList
  | .nil => .ok .nil
  | .cons x rest =>
    match computeExpr reg obj x (normalizeOptions options) with
    | .error e => .error e
    | .ok v =>
      match computeArr reg obj options rest with
      | .error e => .error e
      | .ok vs => .ok (.cons v vs)

/-- Models the mapping loop of `computeValue` (source lines 268-281).
`total` is `keys(expr).length` of the original mapping.  Each entry
computes `computeValue(obj, val, key, options)` — inlined here as the
body of `computeValue` at operator `key` — and stores the result under
`key`; when `key` is registered under EXPRESSION or ACCUMULATOR the
mapping must have exactly one entry (else "Invalid aggregation
expression") and the loop breaks returning that single value. -/
def computeObj (reg : Registry) (obj : Value) (options : ComputeOptions) (total : Nat) :
    FieldList → Except Err Value
  | .nil => .ok (.obj .nil)
  | .cons k v rest =>
    let o2 := normalizeOptions options
    let step : Except Err Value :=
      match getOperator reg .EXPRESSION k with
      | some f => f obj v o2
      | none =>
        match getOperator reg .ACCUMULATOR k with
        | some f =>
          match computeExpr reg obj v o2 with
          | .error e => .error e
          | .ok (.arr xs) => f (.arr xs) .null o2
          | .ok _ => .error .typeError
        | none => computeExpr reg obj v o2
    match step with
    | .error e => .error e
    | .ok val =>
      if isOpKey reg k then
        if total == 1 then .ok val else .error .invalidExpression
      else
        match computeObj reg obj options total rest with
        | .error e => .error e
        | .ok (.obj fs) => .ok (.obj (.cons k val fs))
        | .ok other => .ok other
end

/-- Models `computeValue(obj, expr, operator, options)`, the central
evaluator.  Normalizes options, dispatches a registered EXPRESSION
operator on the raw argument, else a registered ACCUMULATOR operator on
the fully resolved argument (which must be an array — "expression must
resolve to an array" — and is passed with a null expression), else
evaluates `expr` itself.  A null (`none`) operator never names a
registered operator, so it falls through to the expression cases. -/
def computeValue (reg : Registry) (obj expr : Value) (operator : Option String)
    (options : ComputeOptions) : Except Err Value :=
  let o2 := normalizeOptions options
  match operator with
  | none => computeExpr reg obj expr o2
  | some opname =>
    match getOperator reg .EXPRESSION opname with
    | some f => f obj expr o2
    | none =>
      match getOperator reg .ACCUMULATOR opname with
      | some f =>
        match computeExpr reg obj expr o2 with
        | .error e => .error e
        | .ok (.arr xs) => f (.arr xs) .null o2
        | .ok _ => .error .typeError
      | none => computeExpr reg obj expr o2

mutual
/-- Models `accumulate(collection, field, expr, options)`: a registered
ACCUMULATOR named `field` is invoked with the collection and the raw
expression; otherwise a mapping is reduced entry by entry; any other
expression has no defined reduction and yields undefined (the JS
function falls through without a return statement). -/
def accumulate (reg : Registry) (collection : ValueList) (field : String)
    (expr : Value) (options : ComputeOptions) : Except Err Value :=
  match getOperator reg .ACCUMULATOR field with
  | some f => f (.arr collection) expr options
  | none =>
    match expr with
    | .obj fs => accumObj reg collection options fs.length fs
    | _ => .ok .undefined

/-- Models the mapping loop of `accumulate` (source lines 196-206).
`total` is `keys(expr).length`; each entry recurses with the key as the
field; if the key names a registered ACCUMULATOR the result collapses to
that single value and the mapping must have exactly one entry (else
"Invalid $group expression"). -/
def accumObj (reg : Registry) (collection : ValueList) (options : ComputeOptions)
    (total : Nat) : FieldList → Except Err Value
  | .nil => .ok (.obj .nil)
  | .cons k v rest =>
    match accumulate reg collection k v options with
    | .error e => .error e
    | .ok val =>
      if (getOperator reg .ACCUMULATOR k).isSome then
        if total == 1 then .ok val else .error .invalidGroupExpression
      else
        match accumObj reg collection options total rest with
        | .error e => .error e
        | .ok (.obj fs) => .ok (.obj (.cons k val fs))
        | .ok other => .ok other
end

mutual
/-- Models `redact(obj, expr, options)`: evaluate the expression, and
when the result is one of the three redact-variable literals dispatch
into the `redactVariables` table with the merged options
`Object.assign({root: obj}, options)`; otherwise return the result
unchanged.  The `$$KEEP` handler returns the document, `$$PRUNE` returns
undefined, and the `$$DESCEND` handler (inlined below) only traverses
when the expression carries a `$cond` entry.  The in-place field
mutation of the source is rendered functionally: fields whose redacted
value is nil are dropped, the others are overwritten.  The handler's
`each` loop visits fields of a plain-object document; the in-repo
callers only hand documents (plain objects) to it, so non-objects are
returned unchanged. -/
def redact (reg : Registry) (obj expr : Value) (options : ComputeOptions) :
    Except Err Value :=
  (computeValue reg obj expr none options).bind fun result =>
    match result with
    | .str s =>
      if s = "$$KEEP" then .ok obj
      else if s = "$$PRUNE" then .ok .undefined
      else if s = "$$DESCEND" then
        if hasField expr "$cond" then
          match obj with
          | .obj fs =>
            match descendFields reg expr (mergeRootOptions obj options) fs with
            | .error e => .error e
            | .ok fs' => .ok (.obj fs')
          | _ => .ok obj
        else .ok obj
      else .ok (.str s)
    | _ => .ok result
termination_by (sizeOf obj, 1)

/-- Field loop of the `$$DESCEND` handler: object-like field values are
redacted (arrays element-wise, objects directly); a nil redaction result
deletes the field, any other result replaces it; fields holding
non-object-like values are kept as they are. -/
def descendFields (reg : Registry) (expr : Value) (options : ComputeOptions) :
    FieldList → Except Err FieldList
  | .nil => .ok .nil
  | .cons k current rest =>
    match current with
    | .arr elems =>
      match descendElems reg expr options elems with
      | .error e => .error e
      | .ok kept =>
        match descendFields reg expr options rest with
        | .error e => .error e
        | .ok rest' => .ok (.cons k (.arr kept) rest')
    | .obj ofs =>
      match redact reg (.obj ofs) expr options with
      | .error e => .error e
      | .ok r =>
        match descendFields reg expr options rest with
        | .error e => .error e
        | .ok rest' => if isNil r then .ok rest' else .ok (.cons k r rest')
    | _ =>
      match descendFields reg expr options rest with
      | .error e => .error e
      | .ok rest' => .ok (.cons k current rest')
termination_by fs => (sizeOf fs, 0)

/-- Element loop of the `$$DESCEND` handler on an array-valued field:
plain-object elements are redacted, others pass through; nil elements
(including nil redaction results) are dropped from the rebuilt array. -/
def descendElems (reg : Registry) (expr : Value) (options : ComputeOptions) :
    ValueList → Except Err ValueList
  | .nil => .ok .nil
  | .cons e rest =>
    match (match e with | .obj ofs => redact reg (.obj ofs) expr options | _ => .ok e) with
    | .error err => .error err
    | .ok e2 =>
      match descendElems reg expr options rest with
      | .error err => .error err
      | .ok rest' => if isNil e2 then .ok rest' else .ok (.cons e2 rest')
termination_by xs => (sizeOf xs, 0)
end

/-- Characters treated as leading/trailing whitespace by JS number
coercion of strings (the common ones; enough for the fragment used). -/
def isJsSpace (c : Char) : Bool :=
  c = ' ' || c = '\t' || c = '\n' || c = '\r'

/-- Drops leading and trailing whitespace. -/
def trimChars (cs : List Char) : List Char :=
  ((cs.dropWhile isJsSpace).reverse.dropWhile isJsSpace).reverse

/-- Accumulates a digit list into a natural number. -/
def digitsVal : List Char → Nat → Nat
  | [], acc => acc
  | c :: rest, acc => digitsVal rest (acc * 10 + (c.toNat - '0'.toNat))

/-- Parses an unsigned decimal literal (integer part, optional fraction)
as JS `Number(...)` does; `none` means NaN. -/
def parseUnsignedChars (cs : List Char) : Option Rat :=
  match splitChar '.' cs with
  | [intPart] =>
    if !intPart.isEmpty && intPart.all Char.isDigit then
      some ((digitsVal intPart 0 : Nat) : Rat)
    else none
  | [intPart, fracPart] =>
    if (!intPart.isEmpty || !fracPart.isEmpty)
        && intPart.all Char.isDigit && fracPart.all Char.isDigit then
      some (((digitsVal intPart 0 : Nat) : Rat)
        + ((digitsVal fracPart 0 : Nat) : Rat) / ((10 : Rat) ^ fracPart.length))
    else none
  | _ => none

/-- Models JS `Number(string)` on the decimal fragment: surrounding
whitespace is ignored, the empty string is 0, an optional sign precedes
a decimal literal, anything else is NaN (`none`).  Exotic literal forms
(hex, exponents, Infinity) are not modelled; nothing here exercises
them. -/
def parseNumber (s : String) : Option Rat :=
  match trimChars s.data with
  | [] => some 0
  | '-' :: rest => (parseUnsignedChars rest).map (fun q => -q)
  | '+' :: rest => parseUnsignedChars rest
  | cs => parseUnsignedChars cs

/-- Models JS `Number(value)` coercion on runtime values (`none` is
NaN): numbers are themselves, null and booleans and the empty array are
numeric, undefined and plain objects are NaN, strings parse as decimal
literals, and a one-element array coerces via its element. -/
def jsToNumber : Value → Option Rat
  | .num q => some q
  | .nan => none
  | .null => some 0
  | .undefined => none
  | .bool b => some (if b then 1 else 0)
  | .str s => parseNumber s
  | .arr .nil => some 0
  | .arr (.cons v .nil) => jsToNumber v
  | .arr _ => none
  | .obj _ => none

/-- Models `Math.floor(n)`: coerce to a number, floor it; NaN in, NaN
out. -/
def mathFloor (v : Value) : Value :=
  match jsToNumber v with
  | some q => .num ((q.floor : Int) : Rat)
  | none => .nan

/-- The `$floor` EXPRESSION operator
(src/src/operators/expression/arithmetic/floor.ts): resolve the
argument with a null operator; a nil result yields null; then
`assert(isNumber(n) || isNaN(n), '$floor expression must resolve to a
number.')` — where `isNaN` is the coercing JS global — and on success
return `Math.floor(n)`. -/
def floorOp (reg : Registry) : Op := fun obj expr options =>
  match computeValue reg obj expr none options with
  | .error e => .error e
  | .ok n =>
    if isNil n then .ok .null
    else if isNumberV n || (jsToNumber n).isNone then .ok (mathFloor n)
    else .error .typeError

/-- The registry before any registration: every category empty. -/
def emptyReg : Registry := ⟨[], [], [], [], []⟩

/-- Numeric reading of a value with non-numbers contributing zero; used
by the modelled accumulators. -/
def numOrZero : Value → Rat
  | .num q => q
  | _ => 0

/-- Modelled from the spec: the summation loop of a `$sum` ACCUMULATOR
implementation (operator modules are outside src/).  With a null
expression the elements are already resolved and are summed directly;
otherwise each element is evaluated against the expression (with an
empty registry standing for the module-level evaluator capture) and
numeric results are summed, non-numeric ones ignored. -/
def sumVals (expr : Value) (options : ComputeOptions) : ValueList → Rat
  | .nil => 0
  | .cons x rest =>
    (match expr with
     | .null => numOrZero x
     | _ =>
       match computeValue emptyReg x expr none options with
       | .ok v => numOrZero v
       | .error _ => 0) + sumVals expr options rest

/-- Modelled from the spec: result of `$sum` on a collection. -/
def sumImplResult (coll expr : Value) (options : ComputeOptions) : Value :=
  match coll with
  | .arr xs => .num (sumVals expr options xs)
  | _ => .num 0

/-- Modelled from the spec: a total `$sum` ACCUMULATOR callable. -/
def sumImpl : Op := fun coll expr options => .ok (sumImplResult coll expr options)

/-- Modelled from the spec: result of `$avg` on a collection. -/
def avgImplResult (coll expr : Value) (options : ComputeOptions) : Value :=
  match coll with
  | .arr xs =>
    if xs.length = 0 then .null
    else .num (sumVals expr options xs / (xs.length : Rat))
  | _ => .null

/-- Modelled from the spec: a total `$avg` ACCUMULATOR callable. -/
def avgImpl : Op := fun coll expr options => .ok (avgImplResult coll expr options)

/-- Registry holding the modelled `$sum` and `$avg` accumulators. -/
def regSum : Registry :=
  { accumulator := [("$sum", sumImpl), ("$avg", avgImpl)]
    expression := []
    pipeline := []
    projection := []
    query := [] }

/-- Does some key of the mapping name a registered EXPRESSION or
ACCUMULATOR operator? -/
def anyOpKey (reg : Registry) : FieldList → Bool
  | .nil => false
  | .cons k _ rest => isOpKey reg k || anyOpKey reg rest

/-- Does some key of the mapping name a registered ACCUMULATOR? -/
def anyAccKey (reg : Registry) : FieldList → Bool
  | .nil => false
  | .cons k _ rest => (getOperator reg .ACCUMULATOR k).isSome || anyAccKey reg rest

/-- Every entry of the mapping evaluates without error when dispatched
the way the mapping loop of `computeValue` dispatches it. -/
def entriesOk (reg : Registry) (obj : Value) (options : ComputeOptions) :
    FieldList → Prop
  | .nil => True
  | .cons k v rest =>
    (∃ val, computeValue reg obj v (some k) options = .ok val)
      ∧ entriesOk reg obj options rest

/-- Every registered ACCUMULATOR implementation is total (never returns
an error), as the real reducing operators are. -/
def AccsTotal (reg : Registry) : Prop :=
  ∀ (k : String) (f : Op), getOperator reg .ACCUMULATOR k = some f →
    ∀ (c e : Value) (o : ComputeOptions), ∃ v, f c e o = .ok v

/-- Is the value one of the three redact-variable literal strings? -/
def isRedactVarLit : Value → Bool
  | .str s => s ∈ redactVarNames
  | _ => false

/-- Fixture for the root-binding analysis: the top-level document. -/
def c1Doc : Value := .obj (.cons "a" (.num 1) .nil)

/-- Fixture: a sub-document distinct from the top-level one. -/
def c1Sub : Value := .obj (.cons "b" (.num 2) .nil)

/-- Fixture: an EXPRESSION operator that, like `$map`-style leaf
operators, re-enters the evaluator on a different current object using
the capability-bundle `computeValue`, here resolving `$$ROOT` against
the sub-document. -/
def c1Inner : Op := fun _obj _expr options =>
  computeValue emptyReg c1Sub (.str "$$ROOT") none options

/-- Fixture registry with the `$inner` EXPRESSION operator. -/
def c1Reg : Registry :=
  { accumulator := []
    expression := [("$inner", c1Inner)]
    pipeline := []
    projection := []
    query := [] }

/-- Fixture expression performing two system-variable resolutions in one
evaluation chain: a direct `$$ROOT`, then one inside `$inner`. -/
def c1Expr : Value :=
  .arr (.cons (.str "$$ROOT") (.cons (.obj (.cons "$inner" .null .nil)) .nil))

/-! Helper lemmas shared by the claim analyses. -/

/-- A null operator makes `computeValue` normalize the options and fall
through to the expression cases. -/
theorem computeValue_none_eq (reg : Registry) (obj expr : Value) (options : ComputeOptions) :
    computeValue reg obj expr none options
      = computeExpr reg obj expr (normalizeOptions options) := rfl

/-- Dispatch shape of `computeValue` at a named operator. -/
theorem computeValue_some_eq (reg : Registry) (obj expr : Value) (opname : String)
    (options : ComputeOptions) :
    computeValue reg obj expr (some opname) options =
      match getOperator reg .EXPRESSION opname with
      | some f => f obj expr (normalizeOptions options)
      | none =>
        match getOperator reg .ACCUMULATOR opname with
        | some f =>
          match computeValue reg obj expr none options with
          | .error e => .error e
          | .ok (.arr xs) => f (.arr xs) .null (normalizeOptions options)
          | .ok _ => .error .typeError
        | none => computeValue reg obj expr none options := rfl

/-- Option normalization is idempotent, so re-entering `computeValue`
with already-normalized options changes nothing. -/
theorem computeValue_normalize (reg : Registry) (obj expr : Value)
    (operator : Option String) (options : ComputeOptions) :
    computeValue reg obj expr operator (normalizeOptions options)
      = computeValue reg obj expr operator options := rfl

/-- One step of the mapping loop of `computeValue` is exactly a
`computeValue` call at the entry's key followed by the single-operator
check. -/
theorem computeObj_cons_eq (reg : Registry) (obj : Value) (options : ComputeOptions)
    (total : Nat) (k : String) (v : Value) (rest : FieldList) :
    computeObj reg obj options total (.cons k v rest) =
      match computeValue reg obj v (some k) options with
      | .error e => .error e
      | .ok val =>
        if isOpKey reg k then
          if total == 1 then .ok val else .error .invalidExpression
        else
          match computeObj reg obj options total rest with
          | .error e => .error e
          | .ok (.obj fs) => .ok (.obj (.cons k val fs))
          | .ok other => .ok other
    := rfl

/-- C1: the code evaluated at the failing input.  The claim (and the
comment in the source) say the root reference is bound the first time a
system variable is resolved and then threaded unchanged to all recursive
calls of the chain, so that every later resolution sees the same root.
In the code, `Object.assign({root: obj}, options)` builds a fresh object
handed only to the system-variable handler and `options` itself is never
updated, so a later `$$ROOT` inside an operator that re-enters the
evaluator on a sub-document sees that sub-document: the chain below
yields `[{a:1}, {b:2}]` where the claim demands `[{a:1}, {a:1}]`.  The
second conjunct shows the contrast: a root already bound on entry is
preserved and re-supplied, as the claim states. -/
theorem root_rebound_at_each_sysvar_resolution :
    computeValue c1Reg c1Doc c1Expr none ⟨none, none⟩
        = .ok (.arr (.cons c1Doc (.cons c1Sub .nil)))
  ∧ computeValue c1Reg c1Doc c1Expr none ⟨none, some c1Doc⟩
        = .ok (.arr (.cons c1Doc (.cons c1Doc .nil))) := ⟨rfl, rfl⟩

/-- C2 counterexample: a mapping with more than one entry whose first
key is the registered accumulator `$sum` and whose value resolves to a
non-array.  The loop evaluates the entry before performing the
single-operator check, so the failure observed is the accumulator's
TypeError ("expression must resolve to an array"), not the claimed
InvalidExpression. -/
theorem mapping_multi_entry_error_counterexample :
    computeValue regSum (.obj .nil)
        (.obj (.cons "$sum" (.num 0) (.cons "b" (.num 1) .nil))) none ⟨none, none⟩
      = .error .typeError
  ∧ Err.typeError ≠ Err.invalidExpression := ⟨rfl, by decide⟩

/-- Any mapping with an operator key and a total entry count other than
one makes the loop fail with some error: either an entry's own
evaluation fails first, or the single-operator check fires. -/
theorem computeObj_opkey_fails (reg : Registry) (obj : Value) (options : ComputeOptions)
    (total : Nat) (ht : (total == 1) = false) :
    ∀ fs : FieldList, anyOpKey reg fs = true →
      ∃ e, computeObj reg obj options total fs = .error e
  | .nil, h => by simp [anyOpKey] at h
  | .cons k v rest, h => by
    rw [computeObj_cons_eq]
    cases hstep : computeValue reg obj v (some k) options with
    | error e => exact ⟨e, rfl⟩
    | ok val =>
      simp only []
      cases hk : isOpKey reg k with
      | true => simp [ht]
      | false =>
        have hrest : anyOpKey reg rest = true := by
          simpa [anyOpKey, hk] using h
        obtain ⟨e, he⟩ := computeObj_opkey_fails reg obj options total ht rest hrest
        rw [if_neg (by simp [hk]), he]
        exact ⟨e, rfl⟩

/-- When additionally every entry evaluates cleanly, the error the loop
fails with is exactly InvalidExpression. -/
theorem computeObj_opkey_invalid (reg : Registry) (obj : Value) (options : ComputeOptions)
    (total : Nat) (ht : (total == 1) = false) :
    ∀ fs : FieldList, anyOpKey reg fs = true → entriesOk reg obj options fs →
      computeObj reg obj options total fs = .error .invalidExpression
  | .nil, h, _ => by simp [anyOpKey] at h
  | .cons k v rest, h, hok => by
    obtain ⟨⟨val, hval⟩, hrest⟩ := hok
    rw [computeObj_cons_eq, hval]
    simp only []
    cases hk : isOpKey reg k with
    | true => simp [ht]
    | false =>
      have hany : anyOpKey reg rest = true := by simpa [anyOpKey, hk] using h
      rw [if_neg (by simp [hk]),
        computeObj_opkey_invalid reg obj options total ht rest hany hrest]

/-- Entry success is insensitive to option normalization. -/
theorem entriesOk_normalize (reg : Registry) (obj : Value) (options : ComputeOptions) :
    ∀ fs : FieldList, entriesOk reg obj options fs →
      entriesOk reg obj (normalizeOptions options) fs
  | .nil, h => h
  | .cons k v rest, ⟨⟨val, hval⟩, hrest⟩ =>
    ⟨⟨val, by rw [computeValue_normalize]; exact hval⟩,
      entriesOk_normalize reg obj options rest hrest⟩

/-- C2 amended: in a mapping expression evaluated with a null operator,
if a key is registered under EXPRESSION or ACCUMULATOR then a
one-entry mapping collapses to the single computed value
`computeValue(document, value, key, options)`; a mapping with two or
more entries always fails, and the failure is InvalidExpression
provided no entry's own evaluation fails first (the loop evaluates each
entry before checking the single-operator rule, so an entry's error —
e.g. the accumulator TypeError of the counterexample — propagates
instead). -/
theorem computeValue_single_operator_rule (reg : Registry) (obj : Value)
    (options : ComputeOptions) :
    (∀ (k : String) (v : Value), isOpKey reg k = true →
       computeValue reg obj (.obj (.cons k v .nil)) none options
         = computeValue reg obj v (some k) options)
  ∧ (∀ fs : FieldList, 2 ≤ fs.length → anyOpKey reg fs = true →
       ∃ e, computeValue reg obj (.obj fs) none options = .error e)
  ∧ (∀ fs : FieldList, 2 ≤ fs.length → anyOpKey reg fs = true →
       entriesOk reg obj options fs →
       computeValue reg obj (.obj fs) none options = .error .invalidExpression) := by
  have hshape : ∀ fs : FieldList, computeValue reg obj (.obj fs) none options
      = computeObj reg obj (normalizeOptions options) fs.length fs := fun _ => rfl
  refine ⟨?_, ?_, ?_⟩
  · intro k v hk
    rw [hshape, computeObj_cons_eq, computeValue_normalize]
    cases h : computeValue reg obj v (some k) options with
    | error e => rfl
    | ok val => simp [hk, FieldList.length]
  · intro fs hlen hany
    rw [hshape]
    exact computeObj_opkey_fails reg obj (normalizeOptions options) fs.length
      (by rw [beq_eq_false_iff_ne]; omega) fs hany
  · intro fs hlen hany hok
    rw [hshape]
    exact computeObj_opkey_invalid reg obj (normalizeOptions options) fs.length
      (by rw [beq_eq_false_iff_ne]; omega) fs hany
      (entriesOk_normalize reg obj options fs hok)

/-- Witness for C2: the amended rule applied to concrete mappings over
the `$sum`/`$avg` registry — a clean two-entry mapping fails with
InvalidExpression, and a one-entry mapping collapses to the dispatched
value. -/
theorem computeValue_single_operator_rule_witness :
    computeValue regSum (.obj .nil)
        (.obj (.cons "$sum" (.arr .nil) (.cons "b" (.num 1) .nil))) none ⟨none, none⟩
      = .error .invalidExpression
  ∧ computeValue regSum (.obj .nil) (.obj (.cons "$sum" (.arr .nil) .nil)) none ⟨none, none⟩
      = computeValue regSum (.obj .nil) (.arr .nil) (some "$sum") ⟨none, none⟩ := by
  obtain ⟨h1, _h2, h3⟩ := computeValue_single_operator_rule regSum (.obj .nil) ⟨none, none⟩
  refine ⟨?_, h1 "$sum" (.arr .nil) rfl⟩
  exact h3 (.cons "$sum" (.arr .nil) (.cons "b" (.num 1) .nil)) (by decide) rfl
    ⟨⟨.num 0, rfl⟩, ⟨.num 1, rfl⟩, trivial⟩

/-- C3: when `operatorName` names a registered ACCUMULATOR and no
EXPRESSION operator of that name exists, `computeValue` first fully
resolves the expression with a null operator, fails with TypeError
exactly when the resolved value is not an array, and otherwise invokes
the accumulator on the resolved array with a null expression and
returns its result (an error of the inner resolution propagates). -/
theorem computeValue_accumulator_dispatch (reg : Registry) (obj expr : Value)
    (name : String) (options : ComputeOptions) (f : Op)
    (hE : getOperator reg .EXPRESSION name = none)
    (hA : getOperator reg .ACCUMULATOR name = some f) :
    computeValue reg obj expr (some name) options =
      match computeValue reg obj expr none options with
      | .error e => .error e
      | .ok (.arr xs) => f (.arr xs) .null (normalizeOptions options)
      | .ok _ => .error .typeError := by
  rw [computeValue_some_eq, hE, hA]

/-- Witness for C3: with the `$sum` accumulator registered, a scalar
argument yields TypeError and an array argument reaches the
accumulator. -/
theorem computeValue_accumulator_dispatch_witness :
    computeValue regSum (.obj .nil) (.num 5) (some "$sum") ⟨none, none⟩
      = .error .typeError
  ∧ computeValue regSum (.obj .nil) (.arr .nil) (some "$sum") ⟨none, none⟩
      = sumImpl (.arr .nil) .null (normalizeOptions ⟨none, none⟩) := by
  constructor
  · rw [computeValue_accumulator_dispatch regSum (.obj .nil) (.num 5) "$sum"
      ⟨none, none⟩ sumImpl rfl rfl]
    rfl
  · rw [computeValue_accumulator_dispatch regSum (.obj .nil) (.arr .nil) "$sum"
      ⟨none, none⟩ sumImpl rfl rfl]
    rfl

/-- C4: `redact` first computes `result = computeValue(doc, expr, null,
options)`; a `$$KEEP` result returns the document unchanged, `$$PRUNE`
returns the absent value, `$$DESCEND` with an expression lacking a
`$cond` entry returns the document unmodified without recursing, and a
result that is none of the three redact-variable names is returned
unchanged. -/
theorem redact_variable_semantics (reg : Registry) (doc expr : Value)
    (options : ComputeOptions) (r : Value)
    (h : computeValue reg doc expr none options = .ok r) :
    (r = .str "$$KEEP" → redact reg doc expr options = .ok doc)
  ∧ (r = .str "$$PRUNE" → redact reg doc expr options = .ok .undefined)
  ∧ (r = .str "$$DESCEND" → hasField expr "$cond" = false →
       redact reg doc expr options = .ok doc)
  ∧ (isRedactVarLit r = false → redact reg doc expr options = .ok r) := by
  refine ⟨?_, ?_, ?_, ?_⟩
  · rintro rfl
    rw [redact.eq_def, h]
    rfl
  · rintro rfl
    rw [redact.eq_def, h]
    rfl
  · rintro rfl hc
    rw [redact.eq_def, h]
    cases hfc : hasField expr "$cond" with
    | false => rfl
    | true => rw [hfc] at hc; exact absurd hc (by simp)
  · intro hr
    rw [redact.eq_def, h]
    cases r with
    | str s =>
      have h1 : s ≠ "$$KEEP" := by
        intro hs; subst hs; simp [isRedactVarLit, redactVarNames] at hr
      have h2 : s ≠ "$$PRUNE" := by
        intro hs; subst hs; simp [isRedactVarLit, redactVarNames] at hr
      have h3 : s ≠ "$$DESCEND" := by
        intro hs; subst hs; simp [isRedactVarLit, redactVarNames] at hr
      simp [Except.bind, h1, h2, h3]
    | null => rfl
    | undefined => rfl
    | nan => rfl
    | bool b => rfl
    | num q => rfl
    | arr items => rfl
    | obj fields => rfl

/-- Witness for C4: the three redact variables and a plain result, on
the document `{secret: 'x', name: 'y'}`. -/
theorem redact_variable_semantics_witness :
    redact emptyReg (.obj (.cons "secret" (.str "x") (.cons "name" (.str "y") .nil)))
        (.str "$$PRUNE") ⟨none, none⟩ = .ok .undefined
  ∧ redact emptyReg (.obj (.cons "secret" (.str "x") (.cons "name" (.str "y") .nil)))
        (.str "$$KEEP") ⟨none, none⟩
      = .ok (.obj (.cons "secret" (.str "x") (.cons "name" (.str "y") .nil)))
  ∧ redact emptyReg (.obj (.cons "secret" (.str "x") (.cons "name" (.str "y") .nil)))
        (.str "$$DESCEND") ⟨none, none⟩
      = .ok (.obj (.cons "secret" (.str "x") (.cons "name" (.str "y") .nil)))
  ∧ redact emptyReg (.obj (.cons "secret" (.str "x") (.cons "name" (.str "y") .nil)))
        (.num 7) ⟨none, none⟩ = .ok (.num 7) := by
  have hdoc : ∀ e r : Value,
      computeValue emptyReg
          (.obj (.cons "secret" (.str "x") (.cons "name" (.str "y") .nil)))
          e none ⟨none, none⟩ = .ok r →
      (r = .str "$$KEEP" →
        redact emptyReg (.obj (.cons "secret" (.str "x") (.cons "name" (.str "y") .nil)))
          e ⟨none, none⟩ = .ok (.obj (.cons "secret" (.str "x") (.cons "name" (.str "y") .nil))))
      ∧ (r = .str "$$PRUNE" →
        redact emptyReg (.obj (.cons "secret" (.str "x") (.cons "name" (.str "y") .nil)))
          e ⟨none, none⟩ = .ok .undefined)
      ∧ (r = .str "$$DESCEND" → hasField e "$cond" = false →
        redact emptyReg (.obj (.cons "secret" (.str "x") (.cons "name" (.str "y") .nil)))
          e ⟨none, none⟩ = .ok (.obj (.cons "secret" (.str "x") (.cons "name" (.str "y") .nil))))
      ∧ (isRedactVarLit r = false →
        redact emptyReg (.obj (.cons "secret" (.str "x") (.cons "name" (.str "y") .nil)))
          e ⟨none, none⟩ = .ok r) :=
    fun e r hr => redact_variable_semantics emptyReg
      (.obj (.cons "secret" (.str "x") (.cons "name" (.str "y") .nil))) e ⟨none, none⟩ r hr
  refine ⟨?_, ?_, ?_, ?_⟩
  · exact (hdoc (.str "$$PRUNE") (.str "$$PRUNE") rfl).2.1 rfl
  · exact (hdoc (.str "$$KEEP") (.str "$$KEEP") rfl).1 rfl
  · exact (hdoc (.str "$$DESCEND") (.str "$$DESCEND") rfl).2.2.1 rfl rfl
  · exact (hdoc (.num 7) (.num 7) rfl).2.2.2 rfl

/-- C5: registering a batch that contains an already-registered name
fails with DuplicateOperator, provided every name of the batch passes
the pattern check (a batch with an earlier invalid name fails with
InvalidOperatorName instead, as the claim itself notes).  All names are
validated before anything is merged, so on failure no table is touched:
in this functional rendering an error result carries no new registry and
the caller keeps its input registry, first registration intact. -/
theorem addOperators_duplicate_rejected (reg : Registry) (cls : OperatorType)
    (newOps : List (String × Op)) (name : String)
    (hvalid : ∀ p ∈ newOps, isValidOpName p.1 = true)
    (hmem : name ∈ newOps.map Prod.fst)
    (hdup : (getOperator reg cls name).isSome = true) :
    addOperators reg cls newOps = .error .duplicateOperator := by
  have hcheck : checkNewOperators reg cls newOps = some .duplicateOperator := by
    induction newOps with
    | nil => simp at hmem
    | cons p rest ih =>
      obtain ⟨n, f⟩ := p
      have hv : isValidOpName n = true := hvalid (n, f) (List.mem_cons_self _ _)
      simp only [List.map_cons, List.mem_cons] at hmem
      by_cases hn : (getOperator reg cls n).isSome = true
      · simp [checkNewOperators, hv, hn]
      · have hname : name ∈ rest.map Prod.fst := by
          rcases hmem with rfl | hm
          · exact absurd hdup hn
          · exact hm
        simp only [checkNewOperators, hv, Bool.not_true, Bool.false_eq_true,
          if_false, hn]
        exact ih (fun p hp => hvalid p (List.mem_cons_of_mem _ hp)) hname
  simp [addOperators, hcheck]

/-- Witness for C5: re-registering `$sum` as an ACCUMULATOR over the
registry that already holds it. -/
theorem addOperators_duplicate_rejected_witness :
    addOperators regSum .ACCUMULATOR [("$sum", sumImpl)] = .error .duplicateOperator := by
  refine addOperators_duplicate_rejected regSum .ACCUMULATOR [("$sum", sumImpl)] "$sum"
    ?_ (List.mem_singleton.mpr rfl) rfl
  intro p hp
  rw [List.mem_singleton] at hp
  subst hp
  rfl

/-- One step of the grouping loop of `accumulate` is a recursive
`accumulate` call at the entry's key followed by the single-operator
check. -/
theorem accumObj_cons_eq (reg : Registry) (coll : ValueList) (options : ComputeOptions)
    (total : Nat) (k : String) (v : Value) (rest : FieldList) :
    accumObj reg coll options total (.cons k v rest) =
      match accumulate reg coll k v options with
      | .error e => .error e
      | .ok val =>
        if (getOperator reg .ACCUMULATOR k).isSome then
          if total == 1 then .ok val else .error .invalidGroupExpression
        else
          match accumObj reg coll options total rest with
          | .error e => .error e
          | .ok (.obj fs) => .ok (.obj (.cons k val fs))
          | .ok other => .ok other
    := rfl

/-- Dispatch shape of `accumulate`. -/
theorem accumulate_eq_shape (reg : Registry) (coll : ValueList) (field : String)
    (expr : Value) (options : ComputeOptions) :
    accumulate reg coll field expr options =
      match getOperator reg .ACCUMULATOR field with
      | some f => f (.arr coll) expr options
      | none =>
        match expr with
        | .obj fs => accumObj reg coll options fs.length fs
        | _ => .ok .undefined := by
  cases expr <;> rfl

mutual
/-- Under total accumulator implementations, `accumulate` either
succeeds or fails with InvalidGroupExpression: the only fault site of
its own code is the single-operator assertion. -/
theorem accumulate_ok_or_ige (reg : Registry) (coll : ValueList)
    (options : ComputeOptions) (hacc : AccsTotal reg) (field : String)
    (expr : Value) :
    (∃ v, accumulate reg coll field expr options = .ok v)
      ∨ accumulate reg coll field expr options = .error .invalidGroupExpression := by
  rw [accumulate_eq_shape]
  rcases hop : getOperator reg .ACCUMULATOR field with _ | f
  · cases expr with
    | obj fs => exact accumObj_ok_or_ige reg coll options hacc fs.length fs
    | null => exact Or.inl ⟨.undefined, rfl⟩
    | undefined => exact Or.inl ⟨.undefined, rfl⟩
    | nan => exact Or.inl ⟨.undefined, rfl⟩
    | bool b => exact Or.inl ⟨.undefined, rfl⟩
    | num q => exact Or.inl ⟨.undefined, rfl⟩
    | str s => exact Or.inl ⟨.undefined, rfl⟩
    | arr items => exact Or.inl ⟨.undefined, rfl⟩
  · obtain ⟨v, hv⟩ := hacc field f hop (.arr coll) expr options
    exact Or.inl ⟨v, hv⟩
termination_by sizeOf expr

/-- Loop version of the previous lemma. -/
theorem accumObj_ok_or_ige (reg : Registry) (coll : ValueList)
    (options : ComputeOptions) (hacc : AccsTotal reg) (total : Nat)
    (fs : FieldList) :
    (∃ v, accumObj reg coll options total fs = .ok v)
      ∨ accumObj reg coll options total fs = .error .invalidGroupExpression := by
  cases fs with
  | nil => exact Or.inl ⟨.obj .nil, rfl⟩
  | cons k v rest =>
    rw [accumObj_cons_eq]
    rcases accumulate_ok_or_ige reg coll options hacc k v with ⟨val, hval⟩ | hbad
    · rw [hval]
      cases hk : (getOperator reg .ACCUMULATOR k).isSome with
      | true =>
        cases ht : total == 1 with
        | true => exact Or.inl ⟨val, rfl⟩
        | false => exact Or.inr rfl
      | false =>
        rcases accumObj_ok_or_ige reg coll options hacc total rest with ⟨w, hw⟩ | hbad'
        · rw [hw]
          cases w with
          | obj fs' => exact Or.inl ⟨.obj (.cons k val fs'), rfl⟩
          | null => exact Or.inl ⟨.null, rfl⟩
          | undefined => exact Or.inl ⟨.undefined, rfl⟩
          | nan => exact Or.inl ⟨.nan, rfl⟩
          | bool b => exact Or.inl ⟨.bool b, rfl⟩
          | num q => exact Or.inl ⟨.num q, rfl⟩
          | str s => exact Or.inl ⟨.str s, rfl⟩
          | arr items => exact Or.inl ⟨.arr items, rfl⟩
        · rw [hbad']
          exact Or.inr rfl
    · rw [hbad]
      exact Or.inr rfl
termination_by sizeOf fs
end

/-- Any non-singleton grouping mapping with an accumulator key fails
with InvalidGroupExpression once accumulator implementations are total. -/
theorem accumObj_acckey_fails (reg : Registry) (coll : ValueList)
    (options : ComputeOptions) (hacc : AccsTotal reg) (total : Nat)
    (ht : (total == 1) = false) :
    ∀ fs : FieldList, anyAccKey reg fs = true →
      accumObj reg coll options total fs = .error .invalidGroupExpression
  | .nil, h => by simp [anyAccKey] at h
  | .cons k v rest, h => by
    rw [accumObj_cons_eq]
    rcases accumulate_ok_or_ige reg coll options hacc k v with ⟨val, hval⟩ | hbad
    · rw [hval, ht]
      cases hk : (getOperator reg .ACCUMULATOR k).isSome with
      | true => rfl
      | false =>
        have hrest : anyAccKey reg rest = true := by
          simpa [anyAccKey, hk] using h
        rw [accumObj_acckey_fails reg coll options hacc total ht rest hrest]
        rfl
    · rw [hbad]

/-- C6: `accumulate` on a mapping under a field that is not itself a
registered accumulator name — a one-entry mapping whose key names a
registered ACCUMULATOR collapses to that single accumulated value, and
(for total accumulator implementations) a mapping with two or more
entries among which some key is a registered ACCUMULATOR fails with
InvalidGroupExpression. -/
theorem accumulate_single_operator_rule (reg : Registry) (coll : ValueList)
    (field : String) (options : ComputeOptions)
    (hf : getOperator reg .ACCUMULATOR field = none) :
    (∀ (k : String) (v : Value) (f : Op), getOperator reg .ACCUMULATOR k = some f →
       accumulate reg coll field (.obj (.cons k v .nil)) options
         = f (.arr coll) v options)
  ∧ (AccsTotal reg → ∀ fs : FieldList, 2 ≤ fs.length → anyAccKey reg fs = true →
       accumulate reg coll field (.obj fs) options = .error .invalidGroupExpression) := by
  have hshape : ∀ fs : FieldList, accumulate reg coll field (.obj fs) options
      = accumObj reg coll options fs.length fs := by
    intro fs
    rw [accumulate_eq_shape, hf]
  constructor
  · intro k v f hk
    rw [hshape, accumObj_cons_eq]
    have hstep : accumulate reg coll k v options = f (.arr coll) v options := by
      rw [accumulate_eq_shape, hk]
    rw [hstep]
    cases hres : f (.arr coll) v options with
    | error e => rfl
    | ok val => simp [hk, FieldList.length]
  · intro hacc fs hlen hany
    rw [hshape]
    exact accumObj_acckey_fails reg coll options hacc fs.length
      (by rw [beq_eq_false_iff_ne]; omega) fs hany

/-- The modelled `$sum` and `$avg` implementations never fail. -/
theorem regSum_accsTotal : AccsTotal regSum := by
  intro k f hk c e o
  simp only [getOperator, Registry.ops, regSum, lookupOp] at hk
  split_ifs at hk
  · cases hk
    exact ⟨sumImplResult c e o, rfl⟩
  · cases hk
    exact ⟨avgImplResult c e o, rfl⟩

/-- Witness for C6: over the `$sum`/`$avg` registry and the collection
`[{a:1},{a:2},{a:3}]`, the two-key mapping of the claim fails with
InvalidGroupExpression, and the one-key mapping collapses to the `$sum`
value. -/
theorem accumulate_single_operator_rule_witness :
    accumulate regSum
        (.cons (.obj (.cons "a" (.num 1) .nil))
          (.cons (.obj (.cons "a" (.num 2) .nil))
            (.cons (.obj (.cons "a" (.num 3) .nil)) .nil)))
        "$group"
        (.obj (.cons "$sum" (.str "$a") (.cons "$avg" (.str "$a") .nil)))
        ⟨none, none⟩ = .error .invalidGroupExpression
  ∧ accumulate regSum
        (.cons (.obj (.cons "a" (.num 1) .nil))
          (.cons (.obj (.cons "a" (.num 2) .nil))
            (.cons (.obj (.cons "a" (.num 3) .nil)) .nil)))
        "$group" (.obj (.cons "$sum" (.str "$a") .nil)) ⟨none, none⟩
      = sumImpl
          (.arr (.cons (.obj (.cons "a" (.num 1) .nil))
            (.cons (.obj (.cons "a" (.num 2) .nil))
              (.cons (.obj (.cons "a" (.num 3) .nil)) .nil))))
          (.str "$a") ⟨none, none⟩ := by
  obtain ⟨h1, h2⟩ := accumulate_single_operator_rule regSum
    (.cons (.obj (.cons "a" (.num 1) .nil))
      (.cons (.obj (.cons "a" (.num 2) .nil))
        (.cons (.obj (.cons "a" (.num 3) .nil)) .nil)))
    "$group" ⟨none, none⟩ rfl
  exact ⟨h2 regSum_accsTotal
      (.cons "$sum" (.str "$a") (.cons "$avg" (.str "$a") .nil)) (by decide) rfl,
    h1 "$sum" (.str "$a") sumImpl rfl⟩

/-- C7: a `$`-prefixed string expression (that is not a redact-variable
literal) whose first dot-segment names a system variable and which has
further segments evaluates to the remaining dotted path — the original
string with the consumed leading segment and the following dot stripped
— resolved against the system variable's result. -/
theorem computeValue_sysvar_path_resolution (reg : Registry) (obj : Value)
    (options : ComputeOptions) (s seg0 seg1 : String) (restSegs : List String)
    (hd : headIsDollar s = true)
    (hred : s ∉ redactVarNames)
    (hsplit : splitDot s = seg0 :: seg1 :: restSegs)
    (hsys : seg0 ∈ sysVarNames) :
    computeValue reg obj (.str s) none options =
      .ok (resolve (applySysVar seg0 obj (mergeRootOptions obj (normalizeOptions options)))
            (dropChars (dropChars s seg0.length) 1)) := by
  rw [computeValue_none_eq]
  show (if headIsDollar s = true then _ else _) = _
  rw [hd, if_pos rfl, if_neg hred, hsplit]
  show (if seg0 ∈ sysVarNames then
          let obj2 := applySysVar seg0 obj (mergeRootOptions obj (normalizeOptions options))
          if (seg1 :: restSegs).isEmpty = true then Except.ok obj2
          else Except.ok (resolve obj2 (dropChars (dropChars s seg0.length) 1))
        else Except.ok (resolve obj (dropChars s 1))) = _
  rw [if_pos hsys]
  rfl

/-- Witness for C7: `computeValue({a: {b: 1}}, '$$ROOT.a.b', null, {})`
returns `1`. -/
theorem computeValue_sysvar_path_resolution_witness :
    computeValue emptyReg (.obj (.cons "a" (.obj (.cons "b" (.num 1) .nil)) .nil))
      (.str "$$ROOT.a.b") none ⟨none, none⟩ = .ok (.num 1) := by
  rw [computeValue_sysvar_path_resolution emptyReg
    (.obj (.cons "a" (.obj (.cons "b" (.num 1) .nil)) .nil)) ⟨none, none⟩
    "$$ROOT.a.b" "$$ROOT" "a" ["b"] rfl (by decide) rfl (by decide)]
  rfl

/-- C8: `accumulate` with a field that names no registered ACCUMULATOR
and an expression that is not a mapping returns undefined (the JS
function falls off its end) instead of raising an error. -/
theorem accumulate_non_mapping_undefined (reg : Registry) (coll : ValueList)
    (field : String) (expr : Value) (options : ComputeOptions)
    (hf : getOperator reg .ACCUMULATOR field = none)
    (hexpr : isObjectV expr = false) :
    accumulate reg coll field expr options = .ok .undefined := by
  rw [accumulate_eq_shape, hf]
  cases expr with
  | obj fields => simp [isObjectV] at hexpr
  | null => rfl
  | undefined => rfl
  | nan => rfl
  | bool b => rfl
  | num q => rfl
  | str s => rfl
  | arr items => rfl

/-- Witness for C8: a scalar group expression under an unregistered
field. -/
theorem accumulate_non_mapping_undefined_witness :
    accumulate regSum .nil "$group" (.num 3) ⟨none, none⟩ = .ok .undefined :=
  accumulate_non_mapping_undefined regSum .nil "$group" (.num 3) ⟨none, none⟩ rfl rfl

/-- C9 counterexample: the expression `'abc'` resolves to itself, a
non-nil non-numeric value, yet `$floor` does not fail with TypeError:
the guard `isNumber(n) || isNaN(n)` uses the coercing JS global `isNaN`,
which is true for `'abc'`, so the assertion passes and `Math.floor`
returns NaN. -/
theorem floor_nonnumeric_nan_counterexample :
    computeValue emptyReg (.obj .nil) (.str "abc") none ⟨none, none⟩ = .ok (.str "abc")
  ∧ isNil (.str "abc") = false
  ∧ isNumberV (.str "abc") = false
  ∧ floorOp emptyReg (.obj .nil) (.str "abc") ⟨none, none⟩ = .ok .nan
  ∧ floorOp emptyReg (.obj .nil) (.str "abc") ⟨none, none⟩ ≠ .error .typeError := by
  refine ⟨rfl, rfl, rfl, rfl, ?_⟩
  rw [show floorOp emptyReg (.obj .nil) (.str "abc") ⟨none, none⟩ = .ok .nan from rfl]
  simp

/-- C9 amended: when the argument of `$floor` resolves to a number `q`
the result is the largest integer at most `q`; when it resolves to a
non-nil, non-numeric value the operator fails with TypeError exactly if
the value does not coerce to NaN under JS number coercion — a value
coercing to NaN (a non-numeric string, a plain object) passes the
`isNumber(n) || isNaN(n)` guard and `Math.floor` yields NaN instead. -/
theorem floor_amended_semantics (reg : Registry) (obj expr : Value)
    (options : ComputeOptions) (n : Value)
    (h : computeValue reg obj expr none options = .ok n) :
    (∀ q : Rat, n = .num q →
       floorOp reg obj expr options = .ok (.num ((q.floor : Int) : Rat))
         ∧ ((q.floor : Int) : Rat) ≤ q ∧ q < ((q.floor : Int) : Rat) + 1)
  ∧ (isNil n = false → isNumberV n = false → (jsToNumber n).isSome = true →
       floorOp reg obj expr options = .error .typeError)
  ∧ (isNil n = false → isNumberV n = false → jsToNumber n = none →
       floorOp reg obj expr options = .ok .nan) := by
  have hfl : ∀ q : Rat, q.floor = ⌊q⌋ := by
    intro q
    rw [Rat.floor_def', Rat.floor_def]
  refine ⟨?_, ?_, ?_⟩
  · rintro q rfl
    refine ⟨?_, ?_, ?_⟩
    · unfold floorOp
      rw [h]
      rfl
    · rw [hfl]
      exact_mod_cast Int.floor_le q
    · rw [hfl]
      exact_mod_cast Int.lt_floor_add_one q
  · intro h1 h2 h3
    unfold floorOp
    rw [h]
    show (if isNil n = true then Except.ok Value.null
          else if (isNumberV n || (jsToNumber n).isNone) = true then Except.ok (mathFloor n)
          else Except.error Err.typeError) = Except.error Err.typeError
    rw [if_neg (by simp [h1]), if_neg ?_]
    simp only [h2, Bool.false_or]
    cases hj : jsToNumber n with
    | none => rw [hj] at h3; simp at h3
    | some q => simp
  · intro h1 h2 h3
    unfold floorOp
    rw [h]
    show (if isNil n = true then Except.ok Value.null
          else if (isNumberV n || (jsToNumber n).isNone) = true then Except.ok (mathFloor n)
          else Except.error Err.typeError) = Except.ok Value.nan
    rw [if_neg (by simp [h1]), if_pos (by simp [h3])]
    unfold mathFloor
    rw [h3]

/-- Witness for C9: `$floor` of the literal `7/2` is `3`, with the floor
bounds, via the amended theorem; and of the plain object `{}` (non-nil,
non-numeric, coercing to NaN) is NaN. -/
theorem floor_amended_semantics_witness :
    floorOp emptyReg (.obj .nil) (.num ((7 : Rat) / 2)) ⟨none, none⟩ = .ok (.num 3)
  ∧ floorOp emptyReg (.obj .nil) (.obj .nil) ⟨none, none⟩ = .ok .nan := by
  constructor
  · have h := ((floor_amended_semantics emptyReg (.obj .nil) (.num ((7 : Rat) / 2))
      ⟨none, none⟩ (.num ((7 : Rat) / 2)) rfl).1 ((7 : Rat) / 2) rfl).1
    rw [h]
    norm_num [Rat.floor_def']
  · exact (floor_amended_semantics emptyReg (.obj .nil) (.obj .nil)
      ⟨none, none⟩ (.obj .nil) rfl).2.2 rfl rfl rfl

/-- C10: when the argument of `$floor` resolves to a nil value (null or
the absent value), the operator returns null instead of raising an
error. -/
theorem floor_nil_returns_null (reg : Registry) (obj expr : Value)
    (options : ComputeOptions) (n : Value)
    (h : computeValue reg obj expr none options = .ok n)
    (hnil : isNil n = true) :
    floorOp reg obj expr options = .ok .null := by
  unfold floorOp
  rw [h]
  show (if isNil n = true then Except.ok Value.null
        else if (isNumberV n || (jsToNumber n).isNone) = true then Except.ok (mathFloor n)
        else Except.error Err.typeError) = Except.ok Value.null
  rw [if_pos hnil]

/-- Witness for C10: a literal null argument, and a field path that
resolves to the absent value. -/
theorem floor_nil_returns_null_witness :
    floorOp emptyReg (.obj .nil) .null ⟨none, none⟩ = .ok .null
  ∧ floorOp emptyReg (.obj .nil) (.str "$missing") ⟨none, none⟩ = .ok .null :=
  ⟨floor_nil_returns_null emptyReg (.obj .nil) .null ⟨none, none⟩ .null rfl rfl,
    floor_nil_returns_null emptyReg (.obj .nil) (.str "$missing") ⟨none, none⟩
      .undefined rfl rfl⟩

end Mingo
